import Mathlib

/-!
Shallow embedding of the tic-tac-toe firmware logic (src/main.c) and proofs
about its board logic, button gesture FSM, end-game animation FSM and LED
mask animation loop.

Machine integers are modelled as `Nat` with explicit truncation where the
C code can overflow: `milis` is `uint32_t`, the button FSM's `t0`, `dur1`,
`dur2` are `uint16_t`, `lightMask`'s `elapsed` and `duration_ms` are
`uint16_t`, `playSequence`'s `cycles` is `uint8_t`.  Cell indices are
`Fin 9` (the board has `NUM_LED_PER_COLOR = 9` cells and every index that
reaches an array access in the C code lies in `0..8`).
-/

set_option autoImplicit false

namespace TicTacToe

/-- Enum `eLedColor_t` (without the counting sentinel `eNumOfColors`). -/
inductive LedColor where
  | eRedLed
  | eGreenLed
deriving DecidableEq

/-- Enum `eButtonState_t`. -/
inductive ButtonState where
  | eBtnUndefined
  | eBtnShortKeyPress
  | eBtnDoubleKeyPress
  | eBtnLongKeyPress
deriving DecidableEq, BEq

/-- Enum `eGameState_t`. -/
inductive GameState where
  | eGameRestart
  | eOngoingGame
  | eStalemate
  | eRedPlayerWin
  | eGreenPlayerWin
deriving DecidableEq

/-- Struct `sBoardState_t`: two boolean 9-cell grids (one per color), a
cursor index and the active color. -/
structure BoardState where
  gameBoard : LedColor → Fin 9 → Bool
  cursor : Fin 9
  currentColor : LedColor

/-- Reduction of a natural number to a cell index, `n % 9`. -/
def cellIdx (n : Nat) : Fin 9 :=
  ⟨n % 9, Nat.mod_lt _ (by norm_num)⟩

/-- `cellOccupied`: a cell is occupied when either color grid is set there. -/
def cellOccupied (bs : BoardState) (idx : Fin 9) : Bool :=
  bs.gameBoard .eRedLed idx || bs.gameBoard .eGreenLed idx

/-- `wrapInc`: circular increment of a cell index, `(idx + 1) % 9`. -/
def wrapInc (idx : Fin 9) : Fin 9 :=
  ⟨(idx.val + 1) % 9, Nat.mod_lt _ (by norm_num)⟩

/-- `wrapDec`: circular decrement of a cell index. -/
def wrapDec (idx : Fin 9) : Fin 9 :=
  if idx.val = 0 then ⟨8, by norm_num⟩ else ⟨idx.val - 1, by omega⟩

/-- One scan step of `findNextFreeFrom`: `wrapInc` when `dir > 0`,
`wrapDec` otherwise. -/
def stepDir (dir : Int) (i : Fin 9) : Fin 9 :=
  if dir > 0 then wrapInc i else wrapDec i

/-- The loop of `findNextFreeFrom`, recursing on the remaining `count`. -/
def findAux (bs : BoardState) (dir : Int) : Nat → Fin 9 → Option (Fin 9)
  | 0, _ => none
  | n + 1, i =>
    if cellOccupied bs i = false then some i
    else findAux bs dir n (stepDir dir i)

/-- `findNextFreeFrom`: scan up to 9 cells from `start` in direction `dir`
for the first unoccupied cell (`some` plays the role of the C function
returning `true` together with `*outIdx`). -/
def findNextFreeFrom (bs : BoardState) (start : Fin 9) (dir : Int) : Option (Fin 9) :=
  findAux bs dir 9 start

/-- `kWins`: the 8 winning cell-index triples (3 rows, 3 columns, 2
diagonals). -/
def kWins : List (Fin 9 × Fin 9 × Fin 9) :=
  [(0, 1, 2), (3, 4, 5), (6, 7, 8),
   (0, 3, 6), (1, 4, 7), (2, 5, 8),
   (0, 4, 8), (2, 4, 6)]

/-- `hasWin`: true when some winning triple is fully set in color `c`. -/
def hasWin (bs : BoardState) (c : LedColor) : Bool :=
  kWins.any fun w => bs.gameBoard c w.1 && bs.gameBoard c w.2.1 && bs.gameBoard c w.2.2

/-- `boardFull`: true when all 9 cells are occupied. -/
def boardFull (bs : BoardState) : Bool :=
  (List.finRange 9).all fun i => cellOccupied bs i

/-- `moveCursorToNextFree`: move the cursor to the next free cell in
direction `dir`, starting from the circularly adjacent cell; leave it
unchanged when no free cell is found. -/
def moveCursorToNextFree (bs : BoardState) (dir : Int) : BoardState :=
  let start := if dir > 0 then wrapInc bs.cursor else wrapDec bs.cursor
  match findNextFreeFrom bs start dir with
  | some next => { bs with cursor := next }
  | none => bs

/-- The placement `boardState->gameBoard[currentColor][cursor] = true`
performed by `checkBoard` on a long press at a free cell. -/
def placeAt (bs : BoardState) : BoardState :=
  let g := Function.update (bs.gameBoard bs.currentColor) bs.cursor true
  { bs with gameBoard := Function.update bs.gameBoard bs.currentColor g }

/-- `endTurn`: report a win of the active color, else stalemate when the
board is full, else switch the active color, advance the cursor forward to
the next free cell and report an ongoing game. -/
def endTurn (bs : BoardState) : GameState × BoardState :=
  if hasWin bs bs.currentColor then
    ((if bs.currentColor = .eRedLed then .eRedPlayerWin else .eGreenPlayerWin), bs)
  else if boardFull bs then
    (.eStalemate, bs)
  else
    let bs1 : BoardState :=
      { bs with currentColor := if bs.currentColor = .eRedLed then .eGreenLed else .eRedLed }
    (.eOngoingGame, moveCursorToNextFree bs1 1)

/-- The `switch (buttonState)` dispatch at the top of `checkBoard`.
`Sum.inr` models the early `return endTurn(boardState)` on a long press at
a free cell; `Sum.inl` carries the mutated board into the rest of the
function. -/
def dispatchEvent (bs : BoardState) (ev : ButtonState) : BoardState ⊕ (GameState × BoardState) :=
  match ev with
  | .eBtnShortKeyPress => .inl (moveCursorToNextFree bs 1)
  | .eBtnDoubleKeyPress => .inl (moveCursorToNextFree bs (-1))
  | .eBtnLongKeyPress =>
    if cellOccupied bs bs.cursor = false then .inr (endTurn (placeAt bs))
    else .inl (moveCursorToNextFree bs 1)
  | .eBtnUndefined => .inl bs

/-- The tail of `checkBoard`: self-correct an occupied cursor by scanning
forward (returning stalemate when no free cell exists at all), then return
the first true condition in order red win, green win, full board, ongoing. -/
def postCheck (bs : BoardState) : GameState × BoardState :=
  let corrected : Option BoardState :=
    if cellOccupied bs bs.cursor then
      (findNextFreeFrom bs bs.cursor 1).map fun next => { bs with cursor := next }
    else some bs
  match corrected with
  | none => (.eStalemate, bs)
  | some b =>
    (if hasWin b .eRedLed then .eRedPlayerWin
     else if hasWin b .eGreenLed then .eGreenPlayerWin
     else if boardFull b then .eStalemate
     else .eOngoingGame, b)

/-- `checkBoard`: dispatch the button event, then run the defensive cursor
correction and the final outcome checks (skipped by the early return of
the long-press placement path). -/
def checkBoard (bs : BoardState) (ev : ButtonState) : GameState × BoardState :=
  match dispatchEvent bs ev with
  | .inl mid => postCheck mid
  | .inr r => r

/-- The board state installed by `setup()`: empty grids, cursor 0, red to
move. -/
def initBoard : BoardState :=
  { gameBoard := fun _ _ => false, cursor := 0, currentColor := .eRedLed }

/-- Board states reachable from the reset state through `checkBoard`. -/
inductive Reachable : BoardState → Prop where
  | init : Reachable initBoard
  | step (bs : BoardState) (ev : ButtonState) :
      Reachable bs → Reachable (checkBoard bs ev).2

/-! ### Button gesture FSM (`checkButton`) -/

/-- The local enum `btn_state_t` of `checkButton`. -/
inductive BtnSt where
  | S_IDLE
  | S_DEB_PRESS
  | S_PRESSED
  | S_DEB_RELEASE
  | S_WAIT2
  | S_DEB_PRESS2
  | S_PRESSED2
  | S_DEB_RELEASE2
deriving DecidableEq

/-- The static state of `checkButton`: the FSM state `st`, the state-entry
timestamp `t0` and the two captured press durations (`t0`, `dur1`, `dur2`
are `uint16_t` in the C code, so each is kept below 2^16). -/
structure BtnFsm where
  st : BtnSt
  t0 : Nat
  dur1 : Nat
  dur2 : Nat
deriving DecidableEq

/-- Truncation to `uint16_t`. -/
def u16 (n : Nat) : Nat := n % 65536

/-- The `uint32_t` subtraction `milis - t0` (with `t0` promoted from
`uint16_t`), for `m` and `t` already below 2^32. -/
def sub32 (m t : Nat) : Nat := (m + 4294967296 - t) % 4294967296

/-- `checkButton` as a step function: given the raw `pressed` sample, the
current value of the `uint32_t` counter `milis` and the static state,
return the new static state and the event returned by the call. -/
def checkButton (pressed : Bool) (milis : Nat) (s : BtnFsm) : BtnFsm × ButtonState :=
  let m := milis % 4294967296
  match s.st with
  | .S_IDLE =>
    if pressed then ({ s with st := .S_DEB_PRESS, t0 := u16 m }, .eBtnUndefined)
    else (s, .eBtnUndefined)
  | .S_DEB_PRESS =>
    if !pressed then ({ s with st := .S_IDLE }, .eBtnUndefined)
    else if 10 ≤ sub32 m s.t0 then ({ s with st := .S_PRESSED, t0 := u16 m }, .eBtnUndefined)
    else (s, .eBtnUndefined)
  | .S_PRESSED =>
    if !pressed then
      ({ s with dur1 := u16 (sub32 m s.t0), st := .S_DEB_RELEASE, t0 := u16 m }, .eBtnUndefined)
    else (s, .eBtnUndefined)
  | .S_DEB_RELEASE =>
    if pressed then ({ s with st := .S_PRESSED }, .eBtnUndefined)
    else if 10 ≤ sub32 m s.t0 then
      if 1000 ≤ s.dur1 then ({ s with st := .S_IDLE }, .eBtnLongKeyPress)
      else ({ s with st := .S_WAIT2, t0 := u16 m }, .eBtnUndefined)
    else (s, .eBtnUndefined)
  | .S_WAIT2 =>
    if pressed then ({ s with st := .S_DEB_PRESS2, t0 := u16 m }, .eBtnUndefined)
    else if 500 ≤ sub32 m s.t0 then ({ s with st := .S_IDLE }, .eBtnShortKeyPress)
    else (s, .eBtnUndefined)
  | .S_DEB_PRESS2 =>
    if !pressed then ({ s with st := .S_WAIT2 }, .eBtnUndefined)
    else if 10 ≤ sub32 m s.t0 then ({ s with st := .S_PRESSED2, t0 := u16 m }, .eBtnUndefined)
    else (s, .eBtnUndefined)
  | .S_PRESSED2 =>
    if !pressed then
      ({ s with dur2 := u16 (sub32 m s.t0), st := .S_DEB_RELEASE2, t0 := u16 m }, .eBtnUndefined)
    else (s, .eBtnUndefined)
  | .S_DEB_RELEASE2 =>
    if pressed then ({ s with st := .S_PRESSED2 }, .eBtnUndefined)
    else if 10 ≤ sub32 m s.t0 then
      if 1000 ≤ s.dur2 then ({ s with st := .S_IDLE }, .eBtnLongKeyPress)
      else ({ s with st := .S_IDLE }, .eBtnDoubleKeyPress)
    else (s, .eBtnUndefined)

/-- The zero-initialised static state of `checkButton`. -/
def initBtn : BtnFsm := ⟨.S_IDLE, 0, 0, 0⟩

/-- Invoke `checkButton` once per tick on a list of raw samples, the tick
counter starting at `m` and advancing by 1 between invocations; collect
the final static state and the returned events. -/
def runButton : Nat → BtnFsm → List Bool → BtnFsm × List ButtonState
  | _, s, [] => (s, [])
  | m, s, p :: ps =>
    let r := checkButton p m s
    let rest := runButton (m + 1) r.1 ps
    (rest.1, r.2 :: rest.2)

/-! ### End-game animation FSM (`playSequence`) -/

/-- The static state of `playSequence` (`cycles` is `uint8_t`). -/
structure SeqState where
  lastState : GameState
  started : Bool
  cycles : Nat
deriving DecidableEq

/-- The zero-initialised static state of `playSequence`. -/
def initSeq : SeqState := ⟨.eGameRestart, false, 0⟩

/-- The illumination performed by one `playSequence` invocation: a full
9-cell fill (`lightAll`) or the X pattern (`lightX`), in a color. -/
inductive RenderAct where
  | fillAll (c : LedColor)
  | fillX (c : LedColor)
deriving DecidableEq

/-- `playSequence`: reset the cycle counter on first entry or outcome
change, light the win fill or the alternating-color X, then advance the
cycle counter and report completion once it reaches 3. -/
def playSequence (gameState : GameState) (s0 : SeqState) : Bool × SeqState × RenderAct :=
  let s := if !s0.started || s0.lastState ≠ gameState then
             { lastState := gameState, started := true, cycles := 0 }
           else s0
  let act : RenderAct :=
    match gameState with
    | .eRedPlayerWin => .fillAll .eRedLed
    | .eGreenPlayerWin => .fillAll .eGreenLed
    | _ => .fillX (if s.cycles % 2 = 0 then .eRedLed else .eGreenLed)
  let cycles := (s.cycles + 1) % 256
  if 3 ≤ cycles then (true, { s with started := false, cycles := 0 }, act)
  else (false, { s with cycles := cycles }, act)

/-! ### LED mask animation loop (`lightMask`) -/

/-- The inner `for` loop of `lightMask` over one pass of the mask: each
lit cell adds 2 to the `uint16_t` accumulator `elapsed`, and the loop
breaks as soon as `elapsed >= duration_ms`. -/
def lmPass (d : Nat) : List Bool → Nat → Nat
  | [], e => e
  | b :: rest, e =>
    let e2 := if b then (e + 2) % 65536 else e
    if d ≤ e2 then e2 else lmPass d rest e2

/-- The outer `while (elapsed < duration_ms)` loop of `lightMask`,
instrumented with fuel: `none` means the fuel ran out before the loop
exited. -/
def lightMaskRun (mask : List Bool) (d : Nat) : Nat → Nat → Option Nat
  | 0, _ => none
  | fuel + 1, e =>
    if e < d then lightMaskRun mask d fuel (lmPass d mask e)
    else some e

/-- `lightMask` terminates when some amount of fuel suffices for the outer
loop, starting from `elapsed = 0`. -/
def lightMaskTerminates (mask : List Bool) (d : Nat) : Prop :=
  ∃ fuel, lightMaskRun mask d fuel 0 ≠ none

/-- The all-true mask built by `lightAll`. -/
def lightAllMask : List Bool := List.replicate 9 true

/-- The X-pattern mask built by `lightX` (cells 0, 2, 4, 6, 8). -/
def lightXMask : List Bool :=
  [true, false, true, false, true, false, true, false, true]

/-! ### Definitions following the specification's words

These are written from the specification text, independently of the
control flow of the C code, to state refinement claims against the
source-derived definitions above. -/

/-- The `k`-th cell visited by a scan in direction `dir` starting at `s`
(`k = 0` is `s` itself). -/
def iterStep (dir : Int) : Nat → Fin 9 → Fin 9
  | 0, s => s
  | k + 1, s => iterStep dir k (stepDir dir s)

/-- Spec wording: a color has a winning triple when one of the 8 listed
triples (rows, columns, diagonals) is fully set in that color. -/
def claimHasWin (bs : BoardState) (c : LedColor) : Bool :=
  (bs.gameBoard c 0 && bs.gameBoard c 1 && bs.gameBoard c 2) ||
  (bs.gameBoard c 3 && bs.gameBoard c 4 && bs.gameBoard c 5) ||
  (bs.gameBoard c 6 && bs.gameBoard c 7 && bs.gameBoard c 8) ||
  (bs.gameBoard c 0 && bs.gameBoard c 3 && bs.gameBoard c 6) ||
  (bs.gameBoard c 1 && bs.gameBoard c 4 && bs.gameBoard c 7) ||
  (bs.gameBoard c 2 && bs.gameBoard c 5 && bs.gameBoard c 8) ||
  (bs.gameBoard c 0 && bs.gameBoard c 4 && bs.gameBoard c 8) ||
  (bs.gameBoard c 2 && bs.gameBoard c 4 && bs.gameBoard c 6)

/-- Spec wording: the board is full when every cell is occupied. -/
def claimFull (bs : BoardState) : Bool :=
  decide (∀ i : Fin 9, cellOccupied bs i = true)

/-- Spec wording: the first true condition in order red win, green win,
full board (stalemate), else ongoing. -/
def claimPriority (bs : BoardState) : GameState :=
  if claimHasWin bs .eRedLed then .eRedPlayerWin
  else if claimHasWin bs .eGreenLed then .eGreenPlayerWin
  else if claimFull bs then .eStalemate
  else .eOngoingGame

/-- Spec wording: move the cursor forward to the next free cell — scan the
cells `cursor + 1 + k (mod 9)` for `k = 0..8` and move to the first
unoccupied one; leave the board unchanged when none is free. -/
def claimAdvanceFwd (bs : BoardState) : BoardState :=
  match ((List.range 9).map fun k => cellIdx (bs.cursor.val + 1 + k)).find?
      (fun i => !cellOccupied bs i) with
  | some j => { bs with cursor := j }
  | none => bs

/-- Spec wording: move the cursor backward to the next free cell — scan
the cells `cursor - (k + 1) (mod 9)` for `k = 0..8` (written with the
additive inverse `8` of `1` modulo `9`) and move to the first unoccupied
one; leave the board unchanged when none is free. -/
def claimAdvanceBwd (bs : BoardState) : BoardState :=
  match ((List.range 9).map fun k => cellIdx (bs.cursor.val + 8 * (k + 1))).find?
      (fun i => !cellOccupied bs i) with
  | some j => { bs with cursor := j }
  | none => bs

/-- Spec wording for the state mutated by the `checkBoard` dispatch of
claim C1: short press advances forward, double press advances backward, a
long press places at a free cursor cell and otherwise advances forward,
anything else changes nothing. -/
def claimDispatch (bs : BoardState) (ev : ButtonState) : BoardState :=
  match ev with
  | .eBtnShortKeyPress => claimAdvanceFwd bs
  | .eBtnDoubleKeyPress => claimAdvanceBwd bs
  | .eBtnLongKeyPress =>
    if cellOccupied bs bs.cursor = false then placeAt bs else claimAdvanceFwd bs
  | .eBtnUndefined => bs

/-- Claim C1 as stated: the outcome of `checkBoard` is the red-first
priority check evaluated on the dispatched board state. -/
def claimOutcomeC1 (bs : BoardState) (ev : ButtonState) : GameState :=
  claimPriority (claimDispatch bs ev)

/-- Spec wording for the outcome of `endTurn`: the active color's win,
else stalemate on a full board, else ongoing. -/
def claimEndTurnOutcome (bs : BoardState) : GameState :=
  if claimHasWin bs bs.currentColor then
    (if bs.currentColor = .eRedLed then .eRedPlayerWin else .eGreenPlayerWin)
  else if claimFull bs then .eStalemate
  else .eOngoingGame

/-- The outcome claimed by the amended C1 for the paths that reach the
tail of `checkBoard`: stalemate when the cursor is stuck on an occupied
cell of a completely full board, else the red-first priority check. -/
def claimTailOutcome (mid : BoardState) : GameState :=
  if cellOccupied mid mid.cursor && claimFull mid then .eStalemate
  else claimPriority mid

/-- The amended claim C1's outcome: the long-press placement path returns
the `endTurn` outcome of the board with the placed cell; every other path
returns the tail outcome of the dispatched board. -/
def claimOutcomeC1Amended (bs : BoardState) (ev : ButtonState) : GameState :=
  match ev with
  | .eBtnShortKeyPress => claimTailOutcome (claimAdvanceFwd bs)
  | .eBtnDoubleKeyPress => claimTailOutcome (claimAdvanceBwd bs)
  | .eBtnLongKeyPress =>
    if cellOccupied bs bs.cursor = false then claimEndTurnOutcome (placeAt bs)
    else claimTailOutcome (claimAdvanceFwd bs)
  | .eBtnUndefined => claimTailOutcome bs

/-! ### Concrete inputs for counterexamples and witnesses -/

/-- A full board on which red owns the winning row 0-1-2 (red also holds
cells 7 and 8, green holds cells 3, 4, 5, 6). -/
def bsFullRedWin : BoardState :=
  { gameBoard := fun c i =>
      match c with
      | .eRedLed => [true, true, true, false, false, false, false, true, true].getD i.val false
      | .eGreenLed => [false, false, false, true, true, true, true, false, false].getD i.val false,
    cursor := 0,
    currentColor := .eRedLed }

/-- A board with red on cells 0 and 1, a free cursor cell 2 and red to
move: a long press completes the winning row. -/
def bsRedAboutToWin : BoardState :=
  { gameBoard := fun c i =>
      match c with
      | .eRedLed => [true, true, false, false, false, false, false, false, false].getD i.val false
      | .eGreenLed => false,
    cursor := 2,
    currentColor := .eRedLed }

/-- The raw button samples of claim C7: a press held for 50 ticks, a gap
of `g` released ticks, a second press held for 50 ticks, then released for
the rest of a 400-tick trace. -/
def pressTrace (g : Nat) : List Bool :=
  List.replicate 50 true ++ List.replicate g false ++ List.replicate 50 true ++
    List.replicate (300 - g) false

/-- The simulation relation of claim C8 between the button FSM states of
two runs observed at tick counters `mA` and `mB`: same FSM state, same
captured durations, and (except in the idle state, which never reads `t0`)
the same number of ticks elapsed since the state was entered. -/
def BtnSim (mA mB : Nat) (sA sB : BtnFsm) : Prop :=
  sA.st = sB.st ∧ sA.dur1 = sB.dur1 ∧ sA.dur2 = sB.dur2 ∧
  (sA.st = .S_IDLE ∨ (sA.t0 ≤ mA ∧ sB.t0 ≤ mB ∧ mA - sA.t0 = mB - sB.t0))

/-- The invariant of claim C2: no cell is set in both color grids. -/
def ExclusiveGrids (bs : BoardState) : Prop :=
  ∀ i : Fin 9, ¬(bs.gameBoard .eRedLed i = true ∧ bs.gameBoard .eGreenLed i = true)

/-- The raw button samples of the claim C8 counterexample: pressed for two
ticks, then released for twelve. -/
def shortBlip : List Bool :=
  [true, true, false, false, false, false, false, false, false, false, false, false, false, false]

/-! ### Helper lemmas: bounded machine arithmetic -/

theorem u16_small {n : Nat} (h : n < 65536) : u16 n = n := Nat.mod_eq_of_lt h

theorem sub32_small {m t : Nat} (ht : t ≤ m) (hm : m < 4294967296) :
    sub32 m t = m - t := by
  unfold sub32
  have h1 : m + 4294967296 - t = (m - t) + 4294967296 := by omega
  rw [h1, Nat.add_mod_right, Nat.mod_eq_of_lt (by omega)]

/-! ### Helper lemmas: the circular free-cell scan -/

theorem wrapInc_val (i : Fin 9) : (wrapInc i).val = (i.val + 1) % 9 := rfl

theorem wrapDec_val (i : Fin 9) : (wrapDec i).val = (i.val + 8) % 9 := by
  have h9 := i.isLt
  unfold wrapDec
  split <;> simp <;> omega

theorem stepDir_one (i : Fin 9) : stepDir 1 i = wrapInc i := rfl

theorem stepDir_neg_one (i : Fin 9) : stepDir (-1) i = wrapDec i := rfl

theorem iterStep_fwd (k : Nat) (s : Fin 9) : iterStep 1 k s = cellIdx (s.val + k) := by
  induction k generalizing s with
  | zero =>
    apply Fin.ext
    simp [iterStep, cellIdx, Nat.mod_eq_of_lt s.isLt]
  | succ k ih =>
    show iterStep 1 k (stepDir 1 s) = cellIdx (s.val + (k + 1))
    rw [ih]
    apply Fin.ext
    have := s.isLt
    simp [cellIdx, stepDir_one, wrapInc_val]
    omega

theorem iterStep_bwd (k : Nat) (s : Fin 9) : iterStep (-1) k s = cellIdx (s.val + 8 * k) := by
  induction k generalizing s with
  | zero =>
    apply Fin.ext
    simp [iterStep, cellIdx, Nat.mod_eq_of_lt s.isLt]
  | succ k ih =>
    show iterStep (-1) k (stepDir (-1) s) = cellIdx (s.val + 8 * (k + 1))
    rw [ih]
    apply Fin.ext
    have := s.isLt
    simp [cellIdx, stepDir_neg_one, wrapDec_val]
    omega

theorem findAux_none_iff (bs : BoardState) (dir : Int) :
    ∀ (n : Nat) (s : Fin 9),
      findAux bs dir n s = none ↔ ∀ k, k < n → cellOccupied bs (iterStep dir k s) = true := by
  intro n
  induction n with
  | zero => intro s; simp [findAux]
  | succ n ih =>
    intro s
    by_cases h : cellOccupied bs s = false
    · simp [findAux, h]
      exact ⟨0, by omega, by simp [iterStep, h]⟩
    · have hocc : cellOccupied bs s = true := by
        revert h; cases cellOccupied bs s <;> simp
      have hred : findAux bs dir (n + 1) s = findAux bs dir n (stepDir dir s) := by
        simp [findAux, hocc]
      rw [hred, ih (stepDir dir s)]
      constructor
      · intro hall k hk
        match k, hk with
        | 0, _ => simpa [iterStep] using hocc
        | k + 1, hk => exact hall k (by omega)
      · intro hall k hk
        exact hall (k + 1) (by omega)

theorem findAux_some_spec (bs : BoardState) (dir : Int) :
    ∀ (n : Nat) (s : Fin 9) (j : Fin 9),
      findAux bs dir n s = some j →
      cellOccupied bs j = false ∧
        ∃ k, k < n ∧ j = iterStep dir k s ∧
          ∀ m, m < k → cellOccupied bs (iterStep dir m s) = true := by
  intro n
  induction n with
  | zero => intro s j h; simp [findAux] at h
  | succ n ih =>
    intro s j h
    by_cases hfree : cellOccupied bs s = false
    · simp [findAux, hfree] at h
      subst h
      exact ⟨hfree, 0, by omega, by simp [iterStep], by omega⟩
    · have hocc : cellOccupied bs s = true := by
        revert hfree; cases cellOccupied bs s <;> simp
      have hred : findAux bs dir (n + 1) s = findAux bs dir n (stepDir dir s) := by
        simp [findAux, hocc]
      rw [hred] at h
      obtain ⟨hj, k, hk, hkj, hmin⟩ := ih (stepDir dir s) j h
      refine ⟨hj, k + 1, by omega, hkj, ?_⟩
      intro m hm
      match m, hm with
      | 0, _ => simpa [iterStep] using hocc
      | m + 1, hm => exact hmin m (by omega)

theorem iter_cover_fwd : ∀ s j : Fin 9, ∃ k : Fin 9, iterStep 1 k.val s = j := by decide

theorem iter_cover_bwd : ∀ s j : Fin 9, ∃ k : Fin 9, iterStep (-1) k.val s = j := by decide

theorem boardFull_iff (bs : BoardState) :
    boardFull bs = true ↔ ∀ i, cellOccupied bs i = true := by
  simp [boardFull, List.all_eq_true, List.mem_finRange]

theorem boardFull_false_iff (bs : BoardState) :
    boardFull bs = false ↔ ∃ i, cellOccupied bs i = false := by
  rw [← Bool.not_eq_true, boardFull_iff]
  push_neg
  constructor
  · rintro ⟨i, hi⟩
    exact ⟨i, by revert hi; cases cellOccupied bs i <;> simp⟩
  · rintro ⟨i, hi⟩
    exact ⟨i, by simp [hi]⟩

theorem find_none_iff_full {bs : BoardState} {s : Fin 9} {dir : Int}
    (hdir : dir = 1 ∨ dir = -1) :
    findNextFreeFrom bs s dir = none ↔ boardFull bs = true := by
  rw [findNextFreeFrom, findAux_none_iff, boardFull_iff]
  constructor
  · intro hall j
    rcases hdir with h | h <;> subst h
    · obtain ⟨k, hk⟩ := iter_cover_fwd s j
      rw [← hk]; exact hall k.val (k.isLt)
    · obtain ⟨k, hk⟩ := iter_cover_bwd s j
      rw [← hk]; exact hall k.val (k.isLt)
  · intro hall k _
    exact hall _

theorem find_some_of_not_full {bs : BoardState} {s : Fin 9} {dir : Int}
    (hdir : dir = 1 ∨ dir = -1) (h : boardFull bs = false) :
    ∃ j, findNextFreeFrom bs s dir = some j := by
  cases hf : findNextFreeFrom bs s dir with
  | none => rw [find_none_iff_full hdir] at hf; rw [hf] at h; cases h
  | some j => exact ⟨j, rfl⟩

/-! ### Helper lemmas: bridges between source and spec-worded definitions -/

theorem findAux_eq_find? (bs : BoardState) (dir : Int) :
    ∀ (n : Nat) (s : Fin 9),
      findAux bs dir n s =
        ((List.range n).map fun k => iterStep dir k s).find? fun i => !cellOccupied bs i := by
  intro n
  induction n with
  | zero => intro s; simp [findAux]
  | succ n ih =>
    intro s
    rw [List.range_succ_eq_map, List.map_cons, List.map_map]
    have hc : ((fun k => iterStep dir k s) ∘ Nat.succ) = fun k => iterStep dir k (stepDir dir s) := by
      funext k
      rfl
    rw [hc, List.find?_cons]
    by_cases hfree : cellOccupied bs s = false
    · simp [findAux, hfree, iterStep]
    · have hocc : cellOccupied bs s = true := by
        revert hfree; cases cellOccupied bs s <;> simp
      simp [findAux, hocc, iterStep, ih (stepDir dir s)]

theorem moveFwd_eq_claim (bs : BoardState) :
    moveCursorToNextFree bs 1 = claimAdvanceFwd bs := by
  have hlist :
      ((List.range 9).map fun k => iterStep 1 k (wrapInc bs.cursor)) =
        (List.range 9).map fun k => cellIdx (bs.cursor.val + 1 + k) := by
    apply List.map_congr_left
    intro k _
    rw [iterStep_fwd]
    apply Fin.ext
    have := bs.cursor.isLt
    simp [cellIdx, wrapInc_val]
    try omega
  have hstart : (if (1 : Int) > 0 then wrapInc bs.cursor else wrapDec bs.cursor) = wrapInc bs.cursor := by
    norm_num
  have hfind :
      findNextFreeFrom bs (wrapInc bs.cursor) 1 =
        ((List.range 9).map fun k => cellIdx (bs.cursor.val + 1 + k)).find?
          fun i => !cellOccupied bs i := by
    rw [findNextFreeFrom, findAux_eq_find?, hlist]
  simp only [moveCursorToNextFree, hstart, hfind, claimAdvanceFwd]

theorem moveBwd_eq_claim (bs : BoardState) :
    moveCursorToNextFree bs (-1) = claimAdvanceBwd bs := by
  have hlist :
      ((List.range 9).map fun k => iterStep (-1) k (wrapDec bs.cursor)) =
        (List.range 9).map fun k => cellIdx (bs.cursor.val + 8 * (k + 1)) := by
    apply List.map_congr_left
    intro k _
    rw [iterStep_bwd]
    apply Fin.ext
    have := bs.cursor.isLt
    simp [cellIdx, wrapDec_val]
    try omega
  have hstart : (if (-1 : Int) > 0 then wrapInc bs.cursor else wrapDec bs.cursor) = wrapDec bs.cursor := by
    norm_num
  have hfind :
      findNextFreeFrom bs (wrapDec bs.cursor) (-1) =
        ((List.range 9).map fun k => cellIdx (bs.cursor.val + 8 * (k + 1))).find?
          fun i => !cellOccupied bs i := by
    rw [findNextFreeFrom, findAux_eq_find?, hlist]
  simp only [moveCursorToNextFree, hstart, hfind, claimAdvanceBwd]

theorem hasWin_eq_claim (bs : BoardState) (c : LedColor) :
    hasWin bs c = claimHasWin bs c := by
  simp only [hasWin, kWins, List.any_cons, List.any_nil, Bool.or_false, claimHasWin,
    Bool.or_assoc]

theorem boardFull_eq_claim (bs : BoardState) :
    boardFull bs = claimFull bs := by
  rw [Bool.eq_iff_iff, boardFull_iff]
  simp [claimFull]

theorem moveCursor_gameBoard (bs : BoardState) (dir : Int) :
    (moveCursorToNextFree bs dir).gameBoard = bs.gameBoard := by
  simp only [moveCursorToNextFree]
  cases findNextFreeFrom bs (if dir > 0 then wrapInc bs.cursor else wrapDec bs.cursor) dir <;> rfl

theorem moveCursor_currentColor (bs : BoardState) (dir : Int) :
    (moveCursorToNextFree bs dir).currentColor = bs.currentColor := by
  simp only [moveCursorToNextFree]
  cases findNextFreeFrom bs (if dir > 0 then wrapInc bs.cursor else wrapDec bs.cursor) dir <;> rfl

/-! ### Helper lemmas: `postCheck`, `endTurn`, `placeAt` -/

theorem moveCursor_some {b : BoardState} {dir : Int} {j : Fin 9}
    (hj : findNextFreeFrom b (if dir > 0 then wrapInc b.cursor else wrapDec b.cursor) dir =
      some j) :
    moveCursorToNextFree b dir = { b with cursor := j } := by
  simp [moveCursorToNextFree, hj]

theorem postCheck_fst (b : BoardState) : (postCheck b).1 = claimTailOutcome b := by
  have hwc : ∀ (j : Fin 9) (c : LedColor), hasWin { b with cursor := j } c = hasWin b c :=
    fun _ _ => rfl
  have hbc : ∀ j : Fin 9, boardFull { b with cursor := j } = boardFull b := fun _ => rfl
  by_cases hocc : cellOccupied b b.cursor = true
  · cases hf : findNextFreeFrom b b.cursor 1 with
    | none =>
      have hfull : boardFull b = true := (find_none_iff_full (Or.inl rfl)).1 hf
      have hcf : claimFull b = true := by rw [← boardFull_eq_claim]; exact hfull
      simp [postCheck, hocc, hf, claimTailOutcome, hcf]
    | some j =>
      have hfree : cellOccupied b j = false := (findAux_some_spec b 1 9 b.cursor j hf).1
      have hnotfull : boardFull b = false := (boardFull_false_iff b).2 ⟨j, hfree⟩
      have hcf : claimFull b = false := by rw [← boardFull_eq_claim]; exact hnotfull
      simp only [postCheck, hocc, if_true, hf, Option.map_some']
      simp only [claimTailOutcome, hocc, hcf, Bool.and_false, Bool.false_eq_true, if_false]
      simp only [hwc, hbc, claimPriority, hasWin_eq_claim, boardFull_eq_claim]
  · have hocc' : cellOccupied b b.cursor = false := by
      revert hocc; cases cellOccupied b b.cursor <;> simp
    simp only [postCheck, hocc', Bool.false_eq_true, if_false]
    simp only [claimTailOutcome, hocc', Bool.false_and, Bool.false_eq_true, if_false]
    simp only [claimPriority, hasWin_eq_claim, boardFull_eq_claim]

theorem postCheck_gameBoard (b : BoardState) : (postCheck b).2.gameBoard = b.gameBoard := by
  by_cases hocc : cellOccupied b b.cursor = true
  · cases hf : findNextFreeFrom b b.cursor 1 <;> simp [postCheck, hocc, hf]
  · have hocc' : cellOccupied b b.cursor = false := by
      revert hocc; cases cellOccupied b b.cursor <;> simp
    simp [postCheck, hocc']

theorem endTurn_fst (b : BoardState) : (endTurn b).1 = claimEndTurnOutcome b := by
  by_cases hw : hasWin b b.currentColor = true
  · have hcw : claimHasWin b b.currentColor = true := by rw [← hasWin_eq_claim]; exact hw
    simp [endTurn, claimEndTurnOutcome, hw, hcw]
  · have hw' : hasWin b b.currentColor = false := by
      revert hw; cases hasWin b b.currentColor <;> simp
    have hcw : claimHasWin b b.currentColor = false := by rw [← hasWin_eq_claim]; exact hw'
    by_cases hf : boardFull b = true
    · have hcf : claimFull b = true := by rw [← boardFull_eq_claim]; exact hf
      simp [endTurn, claimEndTurnOutcome, hw', hcw, hf, hcf]
    · have hf' : boardFull b = false := by
        revert hf; cases boardFull b <;> simp
      have hcf : claimFull b = false := by rw [← boardFull_eq_claim]; exact hf'
      simp [endTurn, claimEndTurnOutcome, hw', hcw, hf', hcf]

theorem endTurn_snd_gameBoard (b : BoardState) : (endTurn b).2.gameBoard = b.gameBoard := by
  by_cases hw : hasWin b b.currentColor = true
  · simp [endTurn, hw]
  · have hw' : hasWin b b.currentColor = false := by
      revert hw; cases hasWin b b.currentColor <;> simp
    by_cases hf : boardFull b = true
    · simp [endTurn, hw', hf]
    · have hf' : boardFull b = false := by
        revert hf; cases boardFull b <;> simp
      simp [endTurn, hw', hf', moveCursor_gameBoard]

theorem placeAt_gameBoard_apply (bs : BoardState) (c : LedColor) (i : Fin 9) :
    (placeAt bs).gameBoard c i =
      if c = bs.currentColor ∧ i = bs.cursor then true else bs.gameBoard c i := by
  simp only [placeAt, Function.update_apply]
  by_cases hc : c = bs.currentColor
  · subst hc
    by_cases hi : i = bs.cursor
    · subst hi
      simp [Function.update_apply]
    · simp [hi, Function.update_apply]
  · simp [hc]

theorem cellOccupied_false_iff (bs : BoardState) (i : Fin 9) :
    cellOccupied bs i = false ↔
      bs.gameBoard .eRedLed i = false ∧ bs.gameBoard .eGreenLed i = false := by
  simp [cellOccupied]

theorem placeAt_exclusive {bs : BoardState} (h : ExclusiveGrids bs)
    (hfree : cellOccupied bs bs.cursor = false) : ExclusiveGrids (placeAt bs) := by
  obtain ⟨hfr, hfg⟩ := (cellOccupied_false_iff bs bs.cursor).1 hfree
  intro i ⟨hr, hg⟩
  rw [placeAt_gameBoard_apply] at hr hg
  by_cases hi : i = bs.cursor
  · subst hi
    cases hcc : bs.currentColor
    · rw [hcc] at hg; simp at hg; rw [hg] at hfg; cases hfg
    · rw [hcc] at hr; simp at hr; rw [hr] at hfr; cases hfr
  · simp [hi] at hr hg
    exact h i ⟨hr, hg⟩

theorem checkBoard_exclusive_step (bs : BoardState) (ev : ButtonState)
    (h : ExclusiveGrids bs) : ExclusiveGrids (checkBoard bs ev).2 := by
  have hgrid : ∀ b b' : BoardState, b'.gameBoard = b.gameBoard → ExclusiveGrids b →
      ExclusiveGrids b' := by
    intro b b' he hb i
    rw [he]
    exact hb i
  cases ev with
  | eBtnUndefined =>
    exact hgrid bs _ (by simp [checkBoard, dispatchEvent, postCheck_gameBoard]) h
  | eBtnShortKeyPress =>
    exact hgrid bs _
      (by simp [checkBoard, dispatchEvent, postCheck_gameBoard, moveCursor_gameBoard]) h
  | eBtnDoubleKeyPress =>
    exact hgrid bs _
      (by simp [checkBoard, dispatchEvent, postCheck_gameBoard, moveCursor_gameBoard]) h
  | eBtnLongKeyPress =>
    by_cases hfree : cellOccupied bs bs.cursor = false
    · have hpl : ExclusiveGrids (placeAt bs) := placeAt_exclusive h hfree
      exact hgrid (placeAt bs) _
        (by simp [checkBoard, dispatchEvent, hfree, endTurn_snd_gameBoard]) hpl
    · have hocc : cellOccupied bs bs.cursor = true := by
        revert hfree; cases cellOccupied bs bs.cursor <;> simp
      exact hgrid bs _
        (by simp [checkBoard, dispatchEvent, hocc, postCheck_gameBoard, moveCursor_gameBoard]) h

/-! ### Claim C1 -/

/-- C1 (counterexample): on the full board `bsFullRedWin`, where red owns
a winning triple, a short press makes `checkBoard` return stalemate (the
defensive cursor branch returns early), not the red win demanded by the
claimed red-first priority order. -/
theorem checkBoard_priority_refuted :
    (checkBoard bsFullRedWin .eBtnShortKeyPress).1 = .eStalemate ∧
    claimOutcomeC1 bsFullRedWin .eBtnShortKeyPress = .eRedPlayerWin ∧
    (checkBoard bsFullRedWin .eBtnShortKeyPress).1 ≠
      claimOutcomeC1 bsFullRedWin .eBtnShortKeyPress := by
  decide

/-- C1 (amended): `checkBoard` dispatches the event exactly as claimed,
but its outcome is the claimed red-first priority check only on the paths
that reach the function tail; the long-press placement path returns the
`endTurn` outcome (active color's win, else stalemate when full, else
ongoing), and on the other paths a cursor stuck on an occupied cell of a
completely full board yields stalemate before any win is reported. -/
theorem checkBoard_outcome_amended (bs : BoardState) (ev : ButtonState) :
    (checkBoard bs ev).1 = claimOutcomeC1Amended bs ev := by
  cases ev with
  | eBtnUndefined =>
    simp only [checkBoard, dispatchEvent, claimOutcomeC1Amended]
    exact postCheck_fst bs
  | eBtnShortKeyPress =>
    simp only [checkBoard, dispatchEvent, claimOutcomeC1Amended, ← moveFwd_eq_claim]
    exact postCheck_fst _
  | eBtnDoubleKeyPress =>
    simp only [checkBoard, dispatchEvent, claimOutcomeC1Amended, ← moveBwd_eq_claim]
    exact postCheck_fst _
  | eBtnLongKeyPress =>
    by_cases hfree : cellOccupied bs bs.cursor = false
    · simp only [checkBoard, dispatchEvent, hfree, if_true, claimOutcomeC1Amended]
      exact endTurn_fst _
    · have hocc : cellOccupied bs bs.cursor = true := by
        revert hfree; cases cellOccupied bs bs.cursor <;> simp
      simp only [checkBoard, dispatchEvent, hocc, claimOutcomeC1Amended, ← moveFwd_eq_claim]
      exact postCheck_fst _

/-! ### Claim C2 -/

/-- C2: every board state reachable from the reset state through
`checkBoard` has each cell set in at most one color grid, and there
`cellOccupied` holds exactly when exactly one color grid is set. -/
theorem reachable_cells_exclusive (bs : BoardState) (h : Reachable bs) (i : Fin 9) :
    ¬(bs.gameBoard .eRedLed i = true ∧ bs.gameBoard .eGreenLed i = true) ∧
    (cellOccupied bs i = true ↔
      (bs.gameBoard .eRedLed i = true ∧ bs.gameBoard .eGreenLed i = false) ∨
      (bs.gameBoard .eRedLed i = false ∧ bs.gameBoard .eGreenLed i = true)) := by
  have hex : ExclusiveGrids bs := by
    induction h with
    | init => intro j hj; simp [initBoard] at hj
    | step bs' ev _ ih => exact checkBoard_exclusive_step bs' ev ih
  refine ⟨hex i, ?_⟩
  cases hr : bs.gameBoard .eRedLed i <;> cases hg : bs.gameBoard .eGreenLed i
  · simp [cellOccupied, hr, hg]
  · simp [cellOccupied, hr, hg]
  · simp [cellOccupied, hr, hg]
  · exact absurd ⟨hr, hg⟩ (hex i)

/-- C2 (witness): the reset state satisfies the exclusivity property at
cell 0. -/
theorem reachable_cells_exclusive_witness :
    ¬(initBoard.gameBoard .eRedLed 0 = true ∧ initBoard.gameBoard .eGreenLed 0 = true) :=
  (reachable_cells_exclusive initBoard Reachable.init 0).1

/-! ### Claim C3 -/

/-- C3: when the active color has a winning triple, `endTurn` reports that
color's win (never stalemate nor ongoing, full board or not); with no such
win it reports stalemate on a full board; otherwise it switches the active
color, advances the cursor forward to the next free cell (the scan
described by the specification, `claimAdvanceFwd`) and reports an ongoing
game, the cursor landing on an unoccupied cell. -/
theorem endTurn_cases (bs : BoardState) :
    (hasWin bs bs.currentColor = true →
      (endTurn bs).1 =
          (if bs.currentColor = .eRedLed then GameState.eRedPlayerWin else .eGreenPlayerWin) ∧
      (endTurn bs).1 ≠ .eStalemate ∧ (endTurn bs).1 ≠ .eOngoingGame) ∧
    (hasWin bs bs.currentColor = false → boardFull bs = true →
      (endTurn bs).1 = .eStalemate) ∧
    (hasWin bs bs.currentColor = false → boardFull bs = false →
      (endTurn bs).1 = .eOngoingGame ∧
      (endTurn bs).2.currentColor =
        (if bs.currentColor = .eRedLed then LedColor.eGreenLed else .eRedLed) ∧
      (endTurn bs).2.gameBoard = bs.gameBoard ∧
      (endTurn bs).2 =
        claimAdvanceFwd
          { bs with currentColor := if bs.currentColor = .eRedLed then .eGreenLed else .eRedLed } ∧
      cellOccupied bs (endTurn bs).2.cursor = false) := by
  refine ⟨?_, ?_, ?_⟩
  · intro hw
    have h1 : (endTurn bs).1 =
        (if bs.currentColor = .eRedLed then GameState.eRedPlayerWin else .eGreenPlayerWin) := by
      simp [endTurn, hw]
    refine ⟨h1, ?_, ?_⟩ <;> rw [h1] <;>
      by_cases hc : bs.currentColor = .eRedLed <;> simp [hc]
  · intro hw hf
    simp [endTurn, hw, hf]
  · intro hw hf
    have hf1 : boardFull
        { bs with currentColor := if bs.currentColor = .eRedLed then LedColor.eGreenLed else .eRedLed } =
          false := hf
    obtain ⟨j, hj⟩ := find_some_of_not_full (Or.inl rfl) hf1
    have hjfree : cellOccupied
        { bs with currentColor := if bs.currentColor = .eRedLed then LedColor.eGreenLed else .eRedLed }
          j = false := (findAux_some_spec _ 1 9 _ j hj).1
    have hmove := moveCursor_some hj
    have hsnd : (endTurn bs).2 = moveCursorToNextFree
        { bs with currentColor := if bs.currentColor = .eRedLed then LedColor.eGreenLed else .eRedLed }
          1 := by
      simp [endTurn, hw, hf]
    refine ⟨by simp [endTurn, hw, hf], ?_, ?_, ?_, ?_⟩
    · rw [hsnd, hmove]
    · rw [hsnd, hmove]
    · rw [hsnd, moveFwd_eq_claim]
    · rw [hsnd, hmove]
      exact hjfree

/-- C3 (witness): on `bsFullRedWin` (red triple present), `endTurn` does
not report stalemate. -/
theorem endTurn_cases_witness : (endTurn bsFullRedWin).1 ≠ .eStalemate :=
  (((endTurn_cases bsFullRedWin).1 (by decide)).2).1

/-! ### Claim C4 -/

/-- C4: for either direction, `moveCursorToNextFree` leaves the whole
state unchanged on a full board; otherwise it changes only the cursor,
landing on the first unoccupied cell of the circular scan that starts at
the cell adjacent to the cursor in that direction. -/
theorem moveCursorToNextFree_spec (bs : BoardState) (dir : Int)
    (hdir : dir = 1 ∨ dir = -1) :
    (boardFull bs = true → moveCursorToNextFree bs dir = bs) ∧
    (boardFull bs = false →
      (moveCursorToNextFree bs dir).gameBoard = bs.gameBoard ∧
      (moveCursorToNextFree bs dir).currentColor = bs.currentColor ∧
      cellOccupied bs (moveCursorToNextFree bs dir).cursor = false ∧
      ∃ k, k < 9 ∧ (moveCursorToNextFree bs dir).cursor = iterStep dir k (stepDir dir bs.cursor) ∧
        ∀ m, m < k → cellOccupied bs (iterStep dir m (stepDir dir bs.cursor)) = true) := by
  constructor
  · intro hfull
    have hnone :
        findNextFreeFrom bs (if dir > 0 then wrapInc bs.cursor else wrapDec bs.cursor) dir =
          none := (find_none_iff_full hdir).2 hfull
    simp [moveCursorToNextFree, hnone]
  · intro hnotfull
    obtain ⟨j, hj⟩ := @find_some_of_not_full bs
      (if dir > 0 then wrapInc bs.cursor else wrapDec bs.cursor) dir hdir hnotfull
    obtain ⟨hjfree, k, hk, hkj, hmin⟩ := findAux_some_spec bs dir 9 _ j hj
    have hmove : moveCursorToNextFree bs dir =
        { bs with cursor := j } := by
      simp [moveCursorToNextFree, hj]
    rw [hmove]
    exact ⟨rfl, rfl, hjfree, k, hk, hkj, hmin⟩

/-- C4 (witness): on the full board the cursor (and everything else) is
unchanged in the forward direction. -/
theorem moveCursorToNextFree_spec_witness :
    moveCursorToNextFree bsFullRedWin 1 = bsFullRedWin :=
  (moveCursorToNextFree_spec bsFullRedWin 1 (Or.inl rfl)).1 (by decide)

/-! ### Claim C5 -/

/-- C5: `hasWin` holds exactly when one of the 8 triples — rows
0-1-2, 3-4-5, 6-7-8, columns 0-3-6, 1-4-7, 2-5-8, diagonals 0-4-8,
2-4-6 — is fully set in the color's grid. -/
theorem hasWin_iff_win_triples (bs : BoardState) (c : LedColor) :
    hasWin bs c = true ↔
      ((bs.gameBoard c 0 = true ∧ bs.gameBoard c 1 = true ∧ bs.gameBoard c 2 = true) ∨
       (bs.gameBoard c 3 = true ∧ bs.gameBoard c 4 = true ∧ bs.gameBoard c 5 = true) ∨
       (bs.gameBoard c 6 = true ∧ bs.gameBoard c 7 = true ∧ bs.gameBoard c 8 = true) ∨
       (bs.gameBoard c 0 = true ∧ bs.gameBoard c 3 = true ∧ bs.gameBoard c 6 = true) ∨
       (bs.gameBoard c 1 = true ∧ bs.gameBoard c 4 = true ∧ bs.gameBoard c 7 = true) ∨
       (bs.gameBoard c 2 = true ∧ bs.gameBoard c 5 = true ∧ bs.gameBoard c 8 = true) ∨
       (bs.gameBoard c 0 = true ∧ bs.gameBoard c 4 = true ∧ bs.gameBoard c 8 = true) ∨
       (bs.gameBoard c 2 = true ∧ bs.gameBoard c 4 = true ∧ bs.gameBoard c 6 = true)) := by
  rw [hasWin_eq_claim]
  unfold claimHasWin
  simp only [Bool.or_eq_true, Bool.and_eq_true, or_assoc, and_assoc]

/-! ### Claim C6 -/

set_option maxHeartbeats 2000000 in
/-- C6 (counterexample): a long press on `bsRedAboutToWin` places the
winning red cell and returns through `endTurn`, leaving the cursor on the
just-placed (occupied) cell even though free cells exist — `checkBoard`
does not self-correct the cursor on this path. -/
theorem checkBoard_longpress_skips_selfcorrect :
    cellOccupied (checkBoard bsRedAboutToWin .eBtnLongKeyPress).2
        (checkBoard bsRedAboutToWin .eBtnLongKeyPress).2.cursor = true ∧
    boardFull (checkBoard bsRedAboutToWin .eBtnLongKeyPress).2 = false := by
  decide

/-- C6 (amended): on every path that reaches the tail of `checkBoard`
(that is, every path except the long-press placement early return), a
cursor sitting on an occupied cell is self-corrected to the first free
cell of the forward scan, and when no free cell exists at all the call
returns stalemate with the state otherwise untouched. -/
theorem checkBoard_selfcorrect_amended (bs mid : BoardState) (ev : ButtonState)
    (hdisp : dispatchEvent bs ev = .inl mid)
    (hocc : cellOccupied mid mid.cursor = true) :
    (boardFull mid = true → checkBoard bs ev = (.eStalemate, mid)) ∧
    (boardFull mid = false →
      (checkBoard bs ev).2.gameBoard = mid.gameBoard ∧
      cellOccupied mid (checkBoard bs ev).2.cursor = false ∧
      ∃ k, k < 9 ∧ (checkBoard bs ev).2.cursor = iterStep 1 k mid.cursor ∧
        ∀ m, m < k → cellOccupied mid (iterStep 1 m mid.cursor) = true) := by
  have hcb : checkBoard bs ev = postCheck mid := by
    simp [checkBoard, hdisp]
  constructor
  · intro hfull
    have hnone : findNextFreeFrom mid mid.cursor 1 = none :=
      (find_none_iff_full (Or.inl rfl)).2 hfull
    rw [hcb]
    simp [postCheck, hocc, hnone]
  · intro hnotfull
    obtain ⟨j, hj⟩ := @find_some_of_not_full mid mid.cursor 1 (Or.inl rfl) hnotfull
    obtain ⟨hjfree, k, hk, hkj, hmin⟩ := findAux_some_spec mid 1 9 _ j hj
    have hsnd : (checkBoard bs ev).2 = { mid with cursor := j } := by
      rw [hcb]
      simp [postCheck, hocc, hj]
    rw [hsnd]
    exact ⟨rfl, hjfree, k, hk, hkj, hmin⟩

/-- C6 (witness): on the full board, an undefined event leaves the
dispatch unchanged and the stuck cursor makes `checkBoard` report
stalemate. -/
theorem checkBoard_selfcorrect_amended_witness :
    checkBoard bsFullRedWin .eBtnUndefined = (.eStalemate, bsFullRedWin) :=
  (checkBoard_selfcorrect_amended bsFullRedWin bsFullRedWin .eBtnUndefined rfl
    (by decide)).1 (by decide)

/-! ### Helper lemmas: button FSM runs -/

theorem runButton_append (xs : List Bool) :
    ∀ (ys : List Bool) (m : Nat) (s : BtnFsm),
      runButton m s (xs ++ ys) =
        ((runButton (m + xs.length) (runButton m s xs).1 ys).1,
         (runButton m s xs).2 ++ (runButton (m + xs.length) (runButton m s xs).1 ys).2) := by
  induction xs with
  | nil => intro ys m s; simp [runButton]
  | cons p ps ih =>
    intro ys m s
    have hlen : m + (ps.length + 1) = m + 1 + ps.length := by omega
    rw [List.cons_append]
    simp only [runButton]
    rw [ih ys (m + 1) (checkButton p m s).1]
    simp only [List.length_cons, hlen, List.cons_append]

theorem checkButton_sim (p : Bool) (mA mB : Nat) (sA sB : BtnFsm)
    (hA : mA < 65536) (hB : mB < 65536) (h : BtnSim mA mB sA sB) :
    (checkButton p mA sA).2 = (checkButton p mB sB).2 ∧
    BtnSim (mA + 1) (mB + 1) (checkButton p mA sA).1 (checkButton p mB sB).1 := by
  obtain ⟨stA, t0A, d1A, d2A⟩ := sA
  obtain ⟨stB, t0B, d1B, d2B⟩ := sB
  obtain ⟨hst, hd1, hd2, hrest⟩ := h
  dsimp only at hst hd1 hd2 hrest
  subst hst
  subst hd1
  subst hd2
  have hmA32 : mA % 4294967296 = mA := Nat.mod_eq_of_lt (by omega)
  have hmB32 : mB % 4294967296 = mB := Nat.mod_eq_of_lt (by omega)
  have huA : u16 mA = mA := u16_small hA
  have huB : u16 mB = mB := u16_small hB
  cases stA with
  | S_IDLE =>
    cases p
    · simp only [checkButton, hmA32, hmB32, Bool.false_eq_true, if_false, true_and]
      exact ⟨rfl, rfl, rfl, Or.inl rfl⟩
    · simp only [checkButton, hmA32, hmB32, if_true, true_and]
      exact ⟨rfl, rfl, rfl, Or.inr (by dsimp only; simp only [huA, huB]; omega)⟩
  | S_DEB_PRESS =>
    rcases hrest with hbad | ⟨ht0A, ht0B, heq⟩
    · simp at hbad
    have hsA : sub32 mA t0A = mA - t0A := sub32_small ht0A (by omega)
    have hsB : sub32 mB t0B = mB - t0B := sub32_small ht0B (by omega)
    cases p
    · simp only [checkButton, hmA32, hmB32, Bool.not_false, if_true, true_and]
      exact ⟨rfl, rfl, rfl, Or.inl rfl⟩
    · by_cases hth : 10 ≤ mA - t0A
      · have hthB : 10 ≤ mB - t0B := by omega
        simp only [checkButton, hmA32, hmB32, hsA, hsB, Bool.not_true, Bool.false_eq_true,
          if_false, if_pos hth, if_pos hthB, true_and]
        exact ⟨rfl, rfl, rfl, Or.inr (by dsimp only; simp only [huA, huB]; omega)⟩
      · have hthB : ¬10 ≤ mB - t0B := by omega
        simp only [checkButton, hmA32, hmB32, hsA, hsB, Bool.not_true, Bool.false_eq_true,
          if_false, if_neg hth, if_neg hthB, true_and]
        exact ⟨rfl, rfl, rfl, Or.inr (by dsimp only; omega)⟩
  | S_PRESSED =>
    rcases hrest with hbad | ⟨ht0A, ht0B, heq⟩
    · simp at hbad
    have hsA : sub32 mA t0A = mA - t0A := sub32_small ht0A (by omega)
    have hsB : sub32 mB t0B = mB - t0B := sub32_small ht0B (by omega)
    cases p
    · simp only [checkButton, hmA32, hmB32, hsA, hsB, Bool.not_false, if_true, true_and]
      refine ⟨rfl, by dsimp only; rw [heq], rfl,
        Or.inr (by dsimp only; simp only [huA, huB]; omega)⟩
    · simp only [checkButton, hmA32, hmB32, Bool.not_true, Bool.false_eq_true, if_false, true_and]
      exact ⟨rfl, rfl, rfl, Or.inr (by dsimp only; omega)⟩
  | S_DEB_RELEASE =>
    rcases hrest with hbad | ⟨ht0A, ht0B, heq⟩
    · simp at hbad
    have hsA : sub32 mA t0A = mA - t0A := sub32_small ht0A (by omega)
    have hsB : sub32 mB t0B = mB - t0B := sub32_small ht0B (by omega)
    cases p
    · by_cases hth : 10 ≤ mA - t0A
      · have hthB : 10 ≤ mB - t0B := by omega
        by_cases hlong : 1000 ≤ d1A
        · simp only [checkButton, hmA32, hmB32, hsA, hsB, Bool.false_eq_true, if_false,
            if_pos hth, if_pos hthB, if_pos hlong, true_and]
          exact ⟨rfl, rfl, rfl, Or.inl rfl⟩
        · simp only [checkButton, hmA32, hmB32, hsA, hsB, Bool.false_eq_true, if_false,
            if_pos hth, if_pos hthB, if_neg hlong, true_and]
          exact ⟨rfl, rfl, rfl, Or.inr (by dsimp only; simp only [huA, huB]; omega)⟩
      · have hthB : ¬10 ≤ mB - t0B := by omega
        simp only [checkButton, hmA32, hmB32, hsA, hsB, Bool.false_eq_true, if_false,
          if_neg hth, if_neg hthB, true_and]
        exact ⟨rfl, rfl, rfl, Or.inr (by dsimp only; omega)⟩
    · simp only [checkButton, hmA32, hmB32, if_true, true_and]
      exact ⟨rfl, rfl, rfl, Or.inr (by dsimp only; omega)⟩
  | S_WAIT2 =>
    rcases hrest with hbad | ⟨ht0A, ht0B, heq⟩
    · simp at hbad
    have hsA : sub32 mA t0A = mA - t0A := sub32_small ht0A (by omega)
    have hsB : sub32 mB t0B = mB - t0B := sub32_small ht0B (by omega)
    cases p
    · by_cases hth : 500 ≤ mA - t0A
      · have hthB : 500 ≤ mB - t0B := by omega
        simp only [checkButton, hmA32, hmB32, hsA, hsB, Bool.false_eq_true, if_false,
          if_pos hth, if_pos hthB, true_and]
        exact ⟨rfl, rfl, rfl, Or.inl rfl⟩
      · have hthB : ¬500 ≤ mB - t0B := by omega
        simp only [checkButton, hmA32, hmB32, hsA, hsB, Bool.false_eq_true, if_false,
          if_neg hth, if_neg hthB, true_and]
        exact ⟨rfl, rfl, rfl, Or.inr (by dsimp only; omega)⟩
    · simp only [checkButton, hmA32, hmB32, if_true, true_and]
      exact ⟨rfl, rfl, rfl, Or.inr (by dsimp only; simp only [huA, huB]; omega)⟩
  | S_DEB_PRESS2 =>
    rcases hrest with hbad | ⟨ht0A, ht0B, heq⟩
    · simp at hbad
    have hsA : sub32 mA t0A = mA - t0A := sub32_small ht0A (by omega)
    have hsB : sub32 mB t0B = mB - t0B := sub32_small ht0B (by omega)
    cases p
    · simp only [checkButton, hmA32, hmB32, Bool.not_false, if_true, true_and]
      exact ⟨rfl, rfl, rfl, Or.inr (by dsimp only; omega)⟩
    · by_cases hth : 10 ≤ mA - t0A
      · have hthB : 10 ≤ mB - t0B := by omega
        simp only [checkButton, hmA32, hmB32, hsA, hsB, Bool.not_true, Bool.false_eq_true,
          if_false, if_pos hth, if_pos hthB, true_and]
        exact ⟨rfl, rfl, rfl, Or.inr (by dsimp only; simp only [huA, huB]; omega)⟩
      · have hthB : ¬10 ≤ mB - t0B := by omega
        simp only [checkButton, hmA32, hmB32, hsA, hsB, Bool.not_true, Bool.false_eq_true,
          if_false, if_neg hth, if_neg hthB, true_and]
        exact ⟨rfl, rfl, rfl, Or.inr (by dsimp only; omega)⟩
  | S_PRESSED2 =>
    rcases hrest with hbad | ⟨ht0A, ht0B, heq⟩
    · simp at hbad
    have hsA : sub32 mA t0A = mA - t0A := sub32_small ht0A (by omega)
    have hsB : sub32 mB t0B = mB - t0B := sub32_small ht0B (by omega)
    cases p
    · simp only [checkButton, hmA32, hmB32, hsA, hsB, Bool.not_false, if_true, true_and]
      refine ⟨rfl, rfl, by dsimp only; rw [heq],
        Or.inr (by dsimp only; simp only [huA, huB]; omega)⟩
    · simp only [checkButton, hmA32, hmB32, Bool.not_true, Bool.false_eq_true, if_false, true_and]
      exact ⟨rfl, rfl, rfl, Or.inr (by dsimp only; omega)⟩
  | S_DEB_RELEASE2 =>
    rcases hrest with hbad | ⟨ht0A, ht0B, heq⟩
    · simp at hbad
    have hsA : sub32 mA t0A = mA - t0A := sub32_small ht0A (by omega)
    have hsB : sub32 mB t0B = mB - t0B := sub32_small ht0B (by omega)
    cases p
    · by_cases hth : 10 ≤ mA - t0A
      · have hthB : 10 ≤ mB - t0B := by omega
        by_cases hlong : 1000 ≤ d2A
        · simp only [checkButton, hmA32, hmB32, hsA, hsB, Bool.false_eq_true, if_false,
            if_pos hth, if_pos hthB, if_pos hlong, true_and]
          exact ⟨rfl, rfl, rfl, Or.inl rfl⟩
        · simp only [checkButton, hmA32, hmB32, hsA, hsB, Bool.false_eq_true, if_false,
            if_pos hth, if_pos hthB, if_neg hlong, true_and]
          exact ⟨rfl, rfl, rfl, Or.inl rfl⟩
      · have hthB : ¬10 ≤ mB - t0B := by omega
        simp only [checkButton, hmA32, hmB32, hsA, hsB, Bool.false_eq_true, if_false,
          if_neg hth, if_neg hthB, true_and]
        exact ⟨rfl, rfl, rfl, Or.inr (by dsimp only; omega)⟩
    · simp only [checkButton, hmA32, hmB32, if_true, true_and]
      exact ⟨rfl, rfl, rfl, Or.inr (by dsimp only; omega)⟩

theorem runButton_sim (ins : List Bool) :
    ∀ (mA mB : Nat) (sA sB : BtnFsm),
      mA + ins.length ≤ 65536 → mB + ins.length ≤ 65536 → BtnSim mA mB sA sB →
      (runButton mA sA ins).2 = (runButton mB sB ins).2 ∧
      BtnSim (mA + ins.length) (mB + ins.length)
        (runButton mA sA ins).1 (runButton mB sB ins).1 := by
  induction ins with
  | nil =>
    intro mA mB sA sB _ _ h
    simpa [runButton] using h
  | cons p ps ih =>
    intro mA mB sA sB hA hB h
    have hA1 : mA < 65536 := by simp at hA; omega
    have hB1 : mB < 65536 := by simp at hB; omega
    obtain ⟨hev, hsim⟩ := checkButton_sim p mA mB sA sB hA1 hB1 h
    obtain ⟨hevs, hsim'⟩ := ih (mA + 1) (mB + 1) _ _
      (by simp at hA; omega) (by simp at hB; omega) hsim
    have hlA : mA + (p :: ps).length = mA + 1 + ps.length := by simp; omega
    have hlB : mB + (p :: ps).length = mB + 1 + ps.length := by simp; omega
    constructor
    · simp only [runButton, hev, hevs]
    · rw [hlA, hlB]
      simpa only [runButton] using hsim'

theorem runButton_idle_replicate (k : Nat) :
    ∀ (m t0 d1 d2 : Nat),
      runButton m ⟨.S_IDLE, t0, d1, d2⟩ (List.replicate k false) =
        (⟨.S_IDLE, t0, d1, d2⟩, List.replicate k .eBtnUndefined) := by
  induction k with
  | zero => intro m t0 d1 d2; simp [runButton]
  | succ k ih =>
    intro m t0 d1 d2
    simp only [List.replicate_succ, runButton, checkButton, Bool.false_eq_true, if_false, ih]

theorem runButton_cons (m : Nat) (s : BtnFsm) (p : Bool) (ps : List Bool) :
    runButton m s (p :: ps) =
      ((runButton (m + 1) (checkButton p m s).1 ps).1,
       (checkButton p m s).2 :: (runButton (m + 1) (checkButton p m s).1 ps).2) := rfl

theorem count_replicate_ne (e b : ButtonState) (hne : (b == e) = false) (n : Nat) :
    (List.replicate n b).count e = 0 := by
  induction n with
  | zero => rfl
  | succ n ih => simp [List.replicate_succ, List.count_cons, hne, ih]

theorem runButton_wait2_replicate (k : Nat) :
    ∀ (m t0 d1 d2 : Nat), t0 ≤ m → m + k ≤ t0 + 500 → t0 + 500 < 4294967296 →
      runButton m ⟨.S_WAIT2, t0, d1, d2⟩ (List.replicate k false) =
        (⟨.S_WAIT2, t0, d1, d2⟩, List.replicate k .eBtnUndefined) := by
  induction k with
  | zero => intro m t0 d1 d2 _ _ _; simp [runButton]
  | succ k ih =>
    intro m t0 d1 d2 h1 h2 h3
    have hm32 : m % 4294967296 = m := Nat.mod_eq_of_lt (by omega)
    have hs : sub32 m t0 = m - t0 := sub32_small h1 (by omega)
    have hth : ¬500 ≤ m - t0 := by omega
    simp only [List.replicate_succ, runButton, checkButton, hm32, hs, Bool.false_eq_true,
      if_false, if_neg hth, ih (m + 1) t0 d1 d2 (by omega) (by omega) h3]

theorem runButton_append_run {m : Nat} {s s1 s2 : BtnFsm} {xs ys : List Bool}
    {e1 e2 : List ButtonState}
    (hx : runButton m s xs = (s1, e1)) (hy : runButton (m + xs.length) s1 ys = (s2, e2)) :
    runButton m s (xs ++ ys) = (s2, e1 ++ e2) := by
  have h1 := runButton_append xs ys m s
  rw [hx] at h1
  dsimp only at h1
  rw [hy] at h1
  exact h1

theorem runButton_cons_run {m : Nat} {s s1 s2 : BtnFsm} {p : Bool} {ps : List Bool}
    {e1 : ButtonState} {e2 : List ButtonState}
    (hx : checkButton p m s = (s1, e1)) (hy : runButton (m + 1) s1 ps = (s2, e2)) :
    runButton m s (p :: ps) = (s2, e1 :: e2) := by
  have h1 := runButton_cons m s p ps
  rw [hx] at h1
  dsimp only at h1
  rw [hy] at h1
  exact h1

/-! ### Claim C7 -/

set_option maxRecDepth 20000 in
/-- C7 (counterexample): with a gap of only 5 ticks between the two
50-tick presses — "within 200 ticks" — the release debounce re-absorbs
the second press, and the run (extended with 300 idle ticks so all
windows expire) returns one ShortPress and no DoublePress. -/
theorem doublepress_gap5_refuted :
    (runButton 0 initBtn (pressTrace 5 ++ List.replicate 300 false)).2.count
        .eBtnDoubleKeyPress = 0 ∧
    (runButton 0 initBtn (pressTrace 5 ++ List.replicate 300 false)).2.count
        .eBtnShortKeyPress = 1 := by
  decide

set_option maxRecDepth 4000 in
/-- C7 (amended): a 50-tick press, a released gap of `g` ticks with
`11 ≤ g ≤ 200` (so that the release debounce window has elapsed before the
second press), a second 50-tick press and silence afterwards yield exactly
one DoublePress, no ShortPress and no LongPress over the whole 400-tick
trace, and the FSM ends back in the idle state. -/
theorem doublepress_window_amended (g : Nat) (h11 : 11 ≤ g) (h200 : g ≤ 200) :
    (runButton 0 initBtn (pressTrace g)).2.count .eBtnDoubleKeyPress = 1 ∧
    (runButton 0 initBtn (pressTrace g)).2.count .eBtnShortKeyPress = 0 ∧
    (runButton 0 initBtn (pressTrace g)).2.count .eBtnLongKeyPress = 0 ∧
    (runButton 0 initBtn (pressTrace g)).1.st = .S_IDLE := by
  have hsplit : pressTrace g =
      (List.replicate 50 true ++ List.replicate 11 false) ++
        (List.replicate (g - 11) false ++
          (true :: ((List.replicate 49 true ++ List.replicate 11 false) ++
            List.replicate (289 - g) false))) := by
    have e1 : List.replicate g (false : Bool) =
        List.replicate 11 false ++ List.replicate (g - 11) false := by
      rw [← List.replicate_add]
      congr 1
      omega
    have e2 : List.replicate (300 - g) (false : Bool) =
        List.replicate 11 false ++ List.replicate (289 - g) false := by
      rw [← List.replicate_add]
      congr 1
      omega
    unfold pressTrace
    rw [e1, e2]
    nth_rewrite 2 [show List.replicate 50 (true : Bool) = true :: List.replicate 49 true from rfl]
    simp [List.append_assoc]
  -- first press and confirmed release: ticks 0..60, ending in the
  -- double-press wait window
  have hA : runButton 0 initBtn (List.replicate 50 true ++ List.replicate 11 false) =
      (⟨.S_WAIT2, 60, 40, 0⟩, List.replicate 61 .eBtnUndefined) := by decide
  -- the rest of the gap: the FSM waits (gap below the 500-tick window)
  have hB : runButton 61 ⟨.S_WAIT2, 60, 40, 0⟩ (List.replicate (g - 11) false) =
      (⟨.S_WAIT2, 60, 40, 0⟩, List.replicate (g - 11) .eBtnUndefined) :=
    runButton_wait2_replicate (g - 11) 61 60 40 0 (by omega) (by omega) (by omega)
  -- the second press edge at tick g + 50
  have hstep : checkButton true (g + 50) ⟨.S_WAIT2, 60, 40, 0⟩ =
      (⟨.S_DEB_PRESS2, g + 50, 40, 0⟩, .eBtnUndefined) := by
    have hm : (g + 50) % 4294967296 = g + 50 := Nat.mod_eq_of_lt (by omega)
    have hu : (g + 50) % 65536 = g + 50 := Nat.mod_eq_of_lt (by omega)
    simp [checkButton, u16, hm, hu]
  -- the reference continuation (gap 11) computed concretely
  have href : runButton 62 ⟨.S_DEB_PRESS2, 61, 40, 0⟩
      (List.replicate 49 true ++ List.replicate 11 false) =
      (⟨.S_IDLE, 111, 40, 40⟩,
       List.replicate 59 .eBtnUndefined ++ [.eBtnDoubleKeyPress]) := by decide
  -- transport it to tick g + 51 by the time-shift simulation
  obtain ⟨hevT, hsimT⟩ := runButton_sim (List.replicate 49 true ++ List.replicate 11 false)
    (g + 50 + 1) 62 ⟨.S_DEB_PRESS2, g + 50, 40, 0⟩ ⟨.S_DEB_PRESS2, 61, 40, 0⟩
    (by simp only [List.length_append, List.length_replicate]; omega)
    (by simp only [List.length_append, List.length_replicate]; omega)
    ⟨rfl, rfl, rfl, Or.inr (by dsimp only; omega)⟩
  rw [href] at hevT hsimT
  rcases hT : runButton (g + 50 + 1) ⟨.S_DEB_PRESS2, g + 50, 40, 0⟩
      (List.replicate 49 true ++ List.replicate 11 false) with ⟨sT, eT⟩
  rw [hT] at hevT hsimT
  dsimp only at hevT
  obtain ⟨stT, t0T, d1T, d2T⟩ := sT
  have hstT : stT = .S_IDLE := by
    have h1 := hsimT.1
    dsimp only at h1
    exact h1
  subst hstT
  subst hevT
  -- the silent remainder keeps the FSM idle
  have hT2 : runButton (g + 50 + 1) ⟨.S_DEB_PRESS2, g + 50, 40, 0⟩
      ((List.replicate 49 true ++ List.replicate 11 false) ++
        List.replicate (289 - g) false) =
      (⟨.S_IDLE, t0T, d1T, d2T⟩,
       (List.replicate 59 .eBtnUndefined ++ [.eBtnDoubleKeyPress]) ++
         List.replicate (289 - g) .eBtnUndefined) :=
    runButton_append_run hT (runButton_idle_replicate (289 - g) _ t0T d1T d2T)
  -- assemble the whole run
  have hRESTm : 61 + (List.replicate (g - 11) (false : Bool)).length = g + 50 := by
    simp
    omega
  have hREST : runButton 61 ⟨.S_WAIT2, 60, 40, 0⟩
      (List.replicate (g - 11) false ++
        (true :: ((List.replicate 49 true ++ List.replicate 11 false) ++
          List.replicate (289 - g) false))) =
      (⟨.S_IDLE, t0T, d1T, d2T⟩,
       List.replicate (g - 11) .eBtnUndefined ++
         (.eBtnUndefined ::
           ((List.replicate 59 .eBtnUndefined ++ [.eBtnDoubleKeyPress]) ++
             List.replicate (289 - g) .eBtnUndefined))) :=
    runButton_append_run hB (by rw [hRESTm]; exact runButton_cons_run hstep hT2)
  have hAm : 0 + (List.replicate 50 (true : Bool) ++ List.replicate 11 false).length = 61 := by
    simp
  have hwhole : runButton 0 initBtn (pressTrace g) =
      (⟨.S_IDLE, t0T, d1T, d2T⟩,
       List.replicate 61 .eBtnUndefined ++
         (List.replicate (g - 11) .eBtnUndefined ++
           (.eBtnUndefined ::
             ((List.replicate 59 .eBtnUndefined ++ [.eBtnDoubleKeyPress]) ++
               List.replicate (289 - g) .eBtnUndefined)))) := by
    rw [hsplit]
    exact runButton_append_run hA (by rw [hAm]; exact hREST)
  rw [hwhole]
  have c1 : (ButtonState.eBtnUndefined == ButtonState.eBtnDoubleKeyPress) = false := rfl
  have c2 : (ButtonState.eBtnUndefined == ButtonState.eBtnShortKeyPress) = false := rfl
  have c3 : (ButtonState.eBtnUndefined == ButtonState.eBtnLongKeyPress) = false := rfl
  have s1 : ([ButtonState.eBtnDoubleKeyPress]).count ButtonState.eBtnDoubleKeyPress = 1 := rfl
  have s2 : ([ButtonState.eBtnDoubleKeyPress]).count ButtonState.eBtnShortKeyPress = 0 := rfl
  have s3 : ([ButtonState.eBtnDoubleKeyPress]).count ButtonState.eBtnLongKeyPress = 0 := rfl
  refine ⟨?_, ?_, ?_, rfl⟩ <;>
    simp only [List.count_append, List.count_cons, count_replicate_ne _ _ c1,
      count_replicate_ne _ _ c2, count_replicate_ne _ _ c3, c1, c2, c3,
      Bool.false_eq_true, if_false, s1, s2, s3]

/-- C7 (witness): the amended window property at the concrete gap 100. -/
theorem doublepress_window_amended_witness :
    (runButton 0 initBtn (pressTrace 100)).2.count .eBtnDoubleKeyPress = 1 :=
  (doublepress_window_amended 100 (by norm_num) (by norm_num)).1

/-! ### Claim C8 -/

/-- C8 (counterexample): the same 14-tick input (two pressed ticks, then
released) fed to two runs starting at `milis = 0` and `milis = 65536`
produces different event sequences, because the `uint16_t` timestamp `t0`
truncates the 32-bit counter: the second run confirms the press instantly
and later emits a spurious ShortPress. -/
theorem checkButton_start_dependent :
    (runButton 0 initBtn shortBlip).2 ≠ (runButton 65536 initBtn shortBlip).2 := by
  decide

/-- C8 (amended): two runs of `checkButton` fed the identical input
sequence at one-tick cadence, differing only in the starting value of the
tick counter, return identical event sequences provided the counter stays
below 2^16 throughout both runs (so the `uint16_t` store of `t0` does not
truncate). -/
theorem checkButton_start_independent (ins : List Bool) (a b : Nat)
    (ha : a + ins.length ≤ 65536) (hb : b + ins.length ≤ 65536) :
    (runButton a initBtn ins).2 = (runButton b initBtn ins).2 :=
  (runButton_sim ins a b initBtn initBtn ha hb ⟨rfl, rfl, rfl, Or.inl rfl⟩).1

/-- C8 (witness): two short runs starting at ticks 0 and 9 agree. -/
theorem checkButton_start_independent_witness :
    (runButton 0 initBtn [true, false]).2 = (runButton 9 initBtn [true, false]).2 :=
  checkButton_start_independent [true, false] 0 9 (by decide) (by decide)

/-! ### Claim C9 -/

/-- C9: a terminal outcome held constant from the animation FSM's reset
state makes `playSequence` report false on the first two invocations and
true on the third, with the started flag and cycle counter reset to 0 on
completion; a stalemate sequence lights the X pattern red, green, red
across the three cycles. -/
theorem playSequence_three_cycles (gs : GameState)
    (h : gs = .eRedPlayerWin ∨ gs = .eGreenPlayerWin ∨ gs = .eStalemate) :
    (playSequence gs initSeq).1 = false ∧
    (playSequence gs (playSequence gs initSeq).2.1).1 = false ∧
    (playSequence gs (playSequence gs (playSequence gs initSeq).2.1).2.1).1 = true ∧
    (playSequence gs (playSequence gs (playSequence gs initSeq).2.1).2.1).2.1.started = false ∧
    (playSequence gs (playSequence gs (playSequence gs initSeq).2.1).2.1).2.1.cycles = 0 ∧
    (gs = .eStalemate →
      (playSequence gs initSeq).2.2 = .fillX .eRedLed ∧
      (playSequence gs (playSequence gs initSeq).2.1).2.2 = .fillX .eGreenLed ∧
      (playSequence gs (playSequence gs (playSequence gs initSeq).2.1).2.1).2.2 =
        .fillX .eRedLed) := by
  rcases h with h | h | h <;> subst h <;> decide

/-- C9 (witness): the property applied at the stalemate outcome. -/
theorem playSequence_three_cycles_witness :
    (playSequence .eStalemate initSeq).1 = false :=
  (playSequence_three_cycles .eStalemate (Or.inr (Or.inr rfl))).1

/-! ### Claim C10 -/

theorem lmPass_even_65535 (mask : List Bool) :
    ∀ e : Nat, e % 2 = 0 → e < 65536 →
      (lmPass 65535 mask e) % 2 = 0 ∧ lmPass 65535 mask e < 65536 := by
  induction mask with
  | nil => intro e he hlt; exact ⟨he, hlt⟩
  | cons b rest ih =>
    intro e he hlt
    cases b
    · have hbr : ¬65535 ≤ e := by omega
      simpa [lmPass, hbr] using ih e he hlt
    · have he2 : ((e + 2) % 65536) % 2 = 0 := by
        rw [Nat.mod_mod_of_dvd _ (by norm_num)]
        omega
      have hlt2 : (e + 2) % 65536 < 65536 := Nat.mod_lt _ (by norm_num)
      have hbr : ¬65535 ≤ (e + 2) % 65536 := by omega
      simpa [lmPass, hbr] using ih _ he2 hlt2

theorem lightMaskRun_65535_none (mask : List Bool) :
    ∀ (fuel e : Nat), e % 2 = 0 → e < 65536 → lightMaskRun mask 65535 fuel e = none := by
  intro fuel
  induction fuel with
  | zero => intro e _ _; rfl
  | succ fuel ih =>
    intro e he hlt
    have hcont : e < 65535 := by omega
    obtain ⟨he', hlt'⟩ := lmPass_even_65535 mask e he hlt
    simp [lightMaskRun, hcont, ih _ he' hlt']

theorem lmPass_ge {d : Nat} (hd : d ≤ 65534) :
    ∀ (mask : List Bool) (e : Nat), e < d → e ≤ lmPass d mask e := by
  intro mask
  induction mask with
  | nil => intro e _; exact Nat.le_refl e
  | cons b rest ih =>
    intro e he
    cases b
    · have hbr : ¬d ≤ e := by omega
      simpa [lmPass, hbr] using ih e he
    · have hw : (e + 2) % 65536 = e + 2 := Nat.mod_eq_of_lt (by omega)
      by_cases hbr : d ≤ e + 2
      · simp [lmPass, hw, hbr]
      · have h2 : e + 2 < d := by omega
        have := ih (e + 2) h2
        simp [lmPass, hw, hbr]
        omega

theorem lmPass_progress {d : Nat} (hd : d ≤ 65534) :
    ∀ (mask : List Bool) (e : Nat), mask.any id = true → e < d →
      e + 2 ≤ lmPass d mask e := by
  intro mask
  induction mask with
  | nil => intro e hany _; simp at hany
  | cons b rest ih =>
    intro e hany he
    cases b
    · have hany' : rest.any id = true := by simpa using hany
      have hbr : ¬d ≤ e := by omega
      simpa [lmPass, hbr] using ih e hany' he
    · have hw : (e + 2) % 65536 = e + 2 := Nat.mod_eq_of_lt (by omega)
      by_cases hbr : d ≤ e + 2
      · simp [lmPass, hw, hbr]
      · have h2 : e + 2 < d := by omega
        have := lmPass_ge hd rest (e + 2) h2
        simp [lmPass, hw, hbr]
        omega

theorem lightMaskRun_term {d : Nat} (hd : d ≤ 65534) (mask : List Bool)
    (hany : mask.any id = true) :
    ∀ (n e : Nat), d ≤ e + 2 * n → lightMaskRun mask d (n + 1) e ≠ none := by
  intro n
  induction n with
  | zero =>
    intro e hde
    have : ¬e < d := by omega
    simp [lightMaskRun, this]
  | succ n ih =>
    intro e hde
    by_cases he : e < d
    · have hprog := lmPass_progress hd mask e hany he
      have : d ≤ lmPass d mask e + 2 * n := by omega
      simpa [lightMaskRun, he] using ih (lmPass d mask e) this
    · simp [lightMaskRun, he]

/-- C10 (counterexample): `lightMask` does not terminate for every
duration when the mask has a lit cell — with the X mask and duration
65535 the even `uint16_t` accumulator wraps past the odd bound and the
loop never exits. -/
theorem lightMask_duration65535_nonterminating :
    lightXMask.any id = true ∧ ¬lightMaskTerminates lightXMask 65535 := by
  refine ⟨by decide, ?_⟩
  rintro ⟨fuel, hne⟩
  exact hne (lightMaskRun_65535_none lightXMask fuel 0 rfl (by norm_num))

/-- C10 (amended): `lightMask` terminates for every duration up to 65534
whenever its mask has at least one lit cell (each pass advances the even
accumulator by at least 2 without wrapping); for the all-false mask and
any positive duration the loop never terminates; the masks passed by
`lightAll` and `lightX` both contain a lit cell. -/
theorem lightMask_termination :
    (∀ (mask : List Bool) (d : Nat), d ≤ 65534 → mask.any id = true →
      lightMaskTerminates mask d) ∧
    (∀ d : Nat, 0 < d → ¬lightMaskTerminates (List.replicate 9 false) d) ∧
    lightAllMask.any id = true ∧ lightXMask.any id = true := by
  refine ⟨?_, ?_, by decide, by decide⟩
  · intro mask d hd hany
    exact ⟨d + 1, lightMaskRun_term hd mask hany d 0 (by omega)⟩
  · intro d hd h
    obtain ⟨fuel, hne⟩ := h
    apply hne
    have hpass : ∀ e : Nat, lmPass d (List.replicate 9 false) e = e := by
      intro e
      by_cases hbr : d ≤ e <;> simp [List.replicate, lmPass, hbr]
    have hrun : ∀ (f e : Nat), e < d → lightMaskRun (List.replicate 9 false) d f e = none := by
      intro f
      induction f with
      | zero => intro e _; rfl
      | succ f ih =>
        intro e he
        have hstep : lightMaskRun (List.replicate 9 false) d (f + 1) e =
            if e < d then
              lightMaskRun (List.replicate 9 false) d f (lmPass d (List.replicate 9 false) e)
            else some e := rfl
        rw [hstep, if_pos he, hpass]
        exact ih e he
    exact hrun fuel 0 hd

/-- C10 (witness): the X mask with the callers' 1000-unit duration
terminates. -/
theorem lightMask_termination_witness :
    lightMaskTerminates lightXMask 1000 :=
  lightMask_termination.1 lightXMask 1000 (by norm_num) (by decide)

end TicTacToe
